import Mathlib

/-!
Verification of the pytest-playwright plugin (asyncio variant).

The embedding models the two source files:
  * `pytest_playwright/pytest_playwright.py` : `pytest_addoption`, a pure
    table of CLI option declarations.
  * `pytest_playwright/asyncio.py` : the `context` fixture of
    `PytestPlaywrightAsyncio`, whose setup optionally starts tracing and
    whose teardown decides, from the three capture options and the test
    outcome, which artifacts (trace / screenshots / videos) to persist.

Side effects performed against the automation library are modelled as an
event trace (`Effect`); calls that the Python code wraps in
`try: ... except Error: pass` are modelled as `Except`-valued operations
guarded by `tryExceptError`.
-/

namespace PytestPlaywright

/-- Default value of a CLI option, mirroring the heterogeneous Python
defaults (`[]`, `False`, `None`, `0`, strings). -/
inductive OptDefault where
  | noneV : OptDefault
  | intV : Int → OptDefault
  | strV : String → OptDefault
  | boolV : Bool → OptDefault
  | listV : List String → OptDefault
  deriving Repr, DecidableEq

/-- One `group.addoption(...)` call from `pytest_addoption`: the option
name, its argparse action (argparse defaults to "store" when none is
given), default value, `type`, `choices`, and help text. -/
structure OptionDecl where
  name : String
  action : String
  dflt : OptDefault
  typ : Option String
  choices : Option (List String)
  help : String
  deriving Repr, DecidableEq

/-- Embedding of `pytest_addoption` from `pytest_playwright.py`: the list
of option declarations it registers, in source order. -/
def pytest_addoption : List OptionDecl :=
  [ { name := "--browser", action := "append", dflt := OptDefault.listV [],
      typ := none, choices := some ["chromium", "firefox", "webkit"],
      help := "Browser engine which should be used" },
    { name := "--headed", action := "store_true", dflt := OptDefault.boolV false,
      typ := none, choices := none,
      help := "Run tests in headed mode." },
    { name := "--browser-channel", action := "store", dflt := OptDefault.noneV,
      typ := none, choices := none,
      help := "Browser channel to be used." },
    { name := "--slowmo", action := "store", dflt := OptDefault.intV 0,
      typ := some "int", choices := none,
      help := "Run tests with slow mo" },
    { name := "--device", action := "store", dflt := OptDefault.noneV,
      typ := none, choices := none,
      help := "Device to be emulated." },
    { name := "--output", action := "store", dflt := OptDefault.strV "test-results",
      typ := none, choices := none,
      help := "Directory for artifacts produced by tests, defaults to test-results." },
    { name := "--tracing", action := "store", dflt := OptDefault.strV "off",
      typ := none, choices := some ["on", "off", "retain-on-failure"],
      help := "Whether to record a trace for each test." },
    { name := "--video", action := "store", dflt := OptDefault.strV "off",
      typ := none, choices := some ["on", "off", "retain-on-failure"],
      help := "Whether to record video for each test." },
    { name := "--screenshot", action := "store", dflt := OptDefault.strV "off",
      typ := none, choices := some ["on", "off", "only-on-failure"],
      help := "Whether to automatically capture a screenshot after each test." },
    { name := "--full-page-screenshot", action := "store_true",
      dflt := OptDefault.boolV false, typ := none, choices := none,
      help := "Whether to take a full page screenshot" } ]

/-- Look up a registered option by its name. -/
def findOption (n : String) : Option OptionDecl :=
  pytest_addoption.find? (fun o => o.name == n)

/-- The option values the `context` fixture reads from `pytestconfig`. -/
structure Config where
  tracing : String
  video : String
  screenshot : String
  full_page_screenshot : Bool
  output : String
  deriving Repr, DecidableEq

/-- The parts of the pytest `FixtureRequest` the fixture uses: the test
node id, and `rep_call.failed` when the `rep_call` attribute exists
(`none` models a node with no `rep_call` attribute). -/
structure Request where
  nodeid : String
  rep_call : Option Bool
  deriving Repr, DecidableEq

/-- A page opened during the test, as the teardown sees it: whether
`page.video` is truthy, the path `video.path()` returns, and whether the
wrapped automation calls (`page.screenshot`, `video.path()`/`save_as`)
raise `Error`. -/
structure PageH where
  hasVideo : Bool
  videoPath : String
  screenshotRaises : Bool
  videoRaises : Bool
  deriving Repr, DecidableEq, Inhabited

/-- Modelled from the spec: the external `slugify` library used for the
trace title and the per-test folder name ("computes a slug-safe output
path per artifact"). Maps a character to itself lowercased when
alphanumeric and to a hyphen otherwise. -/
def slugChar (c : Char) : Char :=
  if c.isAlphanum then c.toLower else '-'

/-- Collapse runs of consecutive hyphens to a single hyphen. -/
def collapseDashes : List Char → List Char
  | [] => []
  | [c] => [c]
  | c1 :: c2 :: rest =>
      if c1 = '-' && c2 = '-' then collapseDashes (c2 :: rest)
      else c1 :: collapseDashes (c2 :: rest)

/-- Modelled from the spec: slug-safe transformation of a test identifier
(lowercase, non-alphanumeric runs become single hyphens, no leading or
trailing hyphen). -/
def slugify (s : String) : String :=
  String.mk
    ((((collapseDashes (s.data.map slugChar)).dropWhile
        (fun c => c = '-')).reverse.dropWhile (fun c => c = '-')).reverse)

/-- Embedding of `os.path.basename`: the component after the last slash. -/
def basename (p : String) : String :=
  String.mk ((p.data.reverse.takeWhile (fun c => !(c = '/'))).reverse)

/-- Modelled from the spec: `PytestPlaywright._build_artifact_test_folder`
lives in `pytest_playwright/base.py`, which is not among the source files;
per the spec, "artifacts are written under a per-test directory derived
from the test identifier" inside the `--output` directory. -/
def build_artifact_test_folder (cfg : Config) (req : Request) (n : String) : String :=
  cfg.output ++ "/" ++ slugify req.nodeid ++ "/" ++ n

/-- One observable call against the automation library made by the
`context` fixture. -/
inductive Effect where
  | tracingStart : String → Bool → Bool → Bool → Effect
  | tracingStop : Option String → Effect
  | screenshot : Nat → Nat → String → Bool → Effect
  | contextClose : Effect
  | videoSaveAs : Nat → String → Effect
  deriving Repr, DecidableEq

/-- The `playwright.async_api.Error` exception. -/
inductive PwError where
  | err : PwError
  deriving Repr, DecidableEq

/-- The `try: ... except Error: pass` pattern: a raised `Error` is
swallowed and contributes no events. -/
def tryExceptError (x : Except PwError (List Effect)) : Except PwError (List Effect) :=
  match x with
  | Except.ok evs => Except.ok evs
  | Except.error _ => Except.ok []

/-- Embedding of the failure flag: `rep_call.failed` when the node has a
`rep_call` attribute, `True` otherwise. -/
def failedOf (req : Request) : Bool :=
  req.rep_call.getD true

/-- Embedding of `capture_trace`: the tracing option is "on" or
"retain-on-failure". -/
def capture_trace (cfg : Config) : Bool :=
  cfg.tracing == "on" || cfg.tracing == "retain-on-failure"

/-- Embedding of `retain_trace`: the tracing option is "on", or the test
failed and the option is "retain-on-failure". -/
def retain_trace (cfg : Config) (failed : Bool) : Bool :=
  cfg.tracing == "on" || (failed && cfg.tracing == "retain-on-failure")

/-- Embedding of `capture_screenshot`: the screenshot option is "on", or
the test failed and the option is "only-on-failure". -/
def capture_screenshot (cfg : Config) (failed : Bool) : Bool :=
  cfg.screenshot == "on" || (failed && cfg.screenshot == "only-on-failure")

/-- Embedding of `preserve_video`: the video option is "on", or the test
failed and the option is "retain-on-failure". -/
def preserve_video (cfg : Config) (failed : Bool) : Bool :=
  cfg.video == "on" || (failed && cfg.video == "retain-on-failure")

/-- Fixture setup (before `yield`): start tracing when the tracing option
asks for it, titled with the slugified node id. -/
def contextSetup (cfg : Config) (req : Request) : List Effect :=
  if capture_trace cfg then
    [Effect.tracingStart (slugify req.nodeid) true true true]
  else []

/-- Teardown trace handling: stop tracing to a path when retained,
discard otherwise; nothing when tracing was never started. -/
def traceStopEvents (cfg : Config) (req : Request) (failed : Bool) : List Effect :=
  if capture_trace cfg then
    if retain_trace cfg failed then
      [Effect.tracingStop (some (build_artifact_test_folder cfg req "trace.zip"))]
    else
      [Effect.tracingStop none]
  else []

/-- Screenshot file name: test-, then failed or finished by outcome, then
the one-based page index, then .png. -/
def screenshotName (failed : Bool) (index : Nat) : String :=
  "test-" ++ (if failed then "failed" else "finished") ++ "-"
    ++ toString (index + 1) ++ ".png"

/-- Embedding of the `page.screenshot` call with timeout 5000: raises
`Error` when the page's screenshot call fails. -/
def pageScreenshot (p : PageH) (index : Nat) (path : String) (fp : Bool) :
    Except PwError (List Effect) :=
  if p.screenshotRaises then Except.error PwError.err
  else Except.ok [Effect.screenshot index 5000 path fp]

/-- The `for index, page in enumerate(pages)` screenshot loop, each call
wrapped in `try ... except Error: pass`. -/
def screenshotLoop (cfg : Config) (req : Request) (failed : Bool) :
    Nat → List PageH → Except PwError (List Effect)
  | _, [] => Except.ok []
  | index, p :: rest => do
      let evs ← tryExceptError
        (pageScreenshot p index
          (build_artifact_test_folder cfg req (screenshotName failed index))
          cfg.full_page_screenshot)
      let restEvs ← screenshotLoop cfg req failed (index + 1) rest
      Except.ok (evs ++ restEvs)

/-- Embedding of the `video.path` and `video.save_as` calls: raises `Error` when the
page's video handling fails (for example an empty video). -/
def videoSaveOp (cfg : Config) (req : Request) (p : PageH) (index : Nat) :
    Except PwError (List Effect) :=
  if p.videoRaises then Except.error PwError.err
  else Except.ok
    [Effect.videoSaveAs index
      (build_artifact_test_folder cfg req (basename p.videoPath))]

/-- The `for page in pages` video loop: pages with no video are skipped
(`continue`), the rest wrapped in `try ... except Error: pass`. -/
def videoLoop (cfg : Config) (req : Request) :
    Nat → List PageH → Except PwError (List Effect)
  | _, [] => Except.ok []
  | index, p :: rest => do
      let evs ←
        if p.hasVideo then tryExceptError (videoSaveOp cfg req p index)
        else Except.ok []
      let restEvs ← videoLoop cfg req (index + 1) rest
      Except.ok (evs ++ restEvs)

/-- Teardown of the `context` fixture (everything after `yield context`):
stop tracing, take screenshots, close the context, save videos, in source
order. -/
def contextTeardown (cfg : Config) (req : Request) (pages : List PageH) :
    Except PwError (List Effect) := do
  let failed := failedOf req
  let traceEvs := traceStopEvents cfg req failed
  let shotEvs ←
    if capture_screenshot cfg failed then screenshotLoop cfg req failed 0 pages
    else Except.ok []
  let vidEvs ←
    if preserve_video cfg failed then videoLoop cfg req 0 pages
    else Except.ok []
  Except.ok (traceEvs ++ shotEvs ++ [Effect.contextClose] ++ vidEvs)

/-- The whole `context` fixture run: setup events, then (after the test
body) the teardown events. -/
def contextFixture (cfg : Config) (req : Request) (pages : List PageH) :
    Except PwError (List Effect) :=
  (contextTeardown cfg req pages).map (fun td => contextSetup cfg req ++ td)

/-- Pure value of the screenshot loop: a raised-and-swallowed screenshot
call contributes no event. -/
def screenshotEventsPure (cfg : Config) (req : Request) (failed : Bool) :
    Nat → List PageH → List Effect
  | _, [] => []
  | index, p :: rest =>
      (if p.screenshotRaises then []
       else
        [Effect.screenshot index 5000
          (build_artifact_test_folder cfg req (screenshotName failed index))
          cfg.full_page_screenshot])
      ++ screenshotEventsPure cfg req failed (index + 1) rest

/-- Pure value of the video loop: pages without a video are skipped, a
raised-and-swallowed save contributes no event. -/
def videoEventsPure (cfg : Config) (req : Request) :
    Nat → List PageH → List Effect
  | _, [] => []
  | index, p :: rest =>
      (if p.hasVideo && !p.videoRaises then
        [Effect.videoSaveAs index
          (build_artifact_test_folder cfg req (basename p.videoPath))]
       else [])
      ++ videoEventsPure cfg req (index + 1) rest

/-- Pure value of the whole teardown. -/
def teardownEventsPure (cfg : Config) (req : Request) (pages : List PageH) :
    List Effect :=
  traceStopEvents cfg req (failedOf req)
    ++ ((if capture_screenshot cfg (failedOf req) then
          screenshotEventsPure cfg req (failedOf req) 0 pages
        else [])
      ++ (Effect.contextClose ::
        (if preserve_video cfg (failedOf req) then
          videoEventsPure cfg req 0 pages
        else [])))

/-- Recognizer for `tracing.start` events. -/
def isTracingStartEv : Effect → Bool
  | Effect.tracingStart _ _ _ _ => true
  | _ => false

/-- Recognizer for `tracing.stop` events. -/
def isTracingStopEv : Effect → Bool
  | Effect.tracingStop _ => true
  | _ => false

/-- Recognizer for `page.screenshot` events. -/
def isScreenshotEv : Effect → Bool
  | Effect.screenshot _ _ _ _ => true
  | _ => false

/-- Recognizer for `video.save_as` events. -/
def isVideoSaveEv : Effect → Bool
  | Effect.videoSaveAs _ _ => true
  | _ => false

/-- Sample configuration: tracing retained on failure only, everything
else off. -/
def cfgTraceRof : Config :=
  { tracing := "retain-on-failure", video := "off", screenshot := "off",
    full_page_screenshot := false, output := "test-results" }

/-- Sample configuration: screenshots always on. -/
def cfgShotOn : Config :=
  { tracing := "off", video := "off", screenshot := "on",
    full_page_screenshot := false, output := "test-results" }

/-- Sample configuration: videos retained on failure only. -/
def cfgVideoRof : Config :=
  { tracing := "off", video := "retain-on-failure", screenshot := "off",
    full_page_screenshot := false, output := "test-results" }

/-- Sample configuration: everything on, full-page screenshots. -/
def cfgAllOn : Config :=
  { tracing := "on", video := "on", screenshot := "on",
    full_page_screenshot := true, output := "test-results" }

/-- Sample request for a failed test. -/
def reqFail : Request := { nodeid := "t", rep_call := some true }

/-- Sample request for a passed test. -/
def reqPass : Request := { nodeid := "t", rep_call := some false }

/-- Sample page whose automation calls never raise. -/
def pageOk : PageH :=
  { hasVideo := true, videoPath := "tmp/v.webm",
    screenshotRaises := false, videoRaises := false }

/-- Sample request whose node has no rep_call attribute. -/
def reqNoRep : Request := { nodeid := "t", rep_call := none }

theorem screenshotLoop_eq (cfg : Config) (req : Request) (failed : Bool)
    (ps : List PageH) : ∀ n : Nat,
    screenshotLoop cfg req failed n ps =
      Except.ok (screenshotEventsPure cfg req failed n ps) := by
  induction ps with
  | nil => intro n; rfl
  | cons p rest ih =>
      intro n
      simp only [screenshotLoop, screenshotEventsPure, pageScreenshot,
        tryExceptError]
      cases hp : p.screenshotRaises <;>
        simp [hp, ih, bind, Except.bind]

theorem videoLoop_eq (cfg : Config) (req : Request)
    (ps : List PageH) : ∀ n : Nat,
    videoLoop cfg req n ps = Except.ok (videoEventsPure cfg req n ps) := by
  induction ps with
  | nil => intro n; rfl
  | cons p rest ih =>
      intro n
      simp only [videoLoop, videoEventsPure, videoSaveOp, tryExceptError]
      cases hv : p.hasVideo <;> cases hr : p.videoRaises <;>
        simp [hv, hr, ih, bind, Except.bind]

theorem contextTeardown_eq (cfg : Config) (req : Request)
    (pages : List PageH) :
    contextTeardown cfg req pages =
      Except.ok (teardownEventsPure cfg req pages) := by
  unfold contextTeardown teardownEventsPure
  cases hs : capture_screenshot cfg (failedOf req) <;>
    cases hv : preserve_video cfg (failedOf req) <;>
      simp [hs, hv, screenshotLoop_eq, videoLoop_eq, bind, Except.bind]

theorem contextFixture_eq (cfg : Config) (req : Request)
    (pages : List PageH) :
    contextFixture cfg req pages =
      Except.ok (contextSetup cfg req ++ teardownEventsPure cfg req pages) := by
  unfold contextFixture
  rw [contextTeardown_eq]
  rfl

theorem mem_screenshotEventsPure_shape (cfg : Config) (req : Request)
    (failed : Bool) (ps : List PageH) : ∀ (n : Nat) (e : Effect),
    e ∈ screenshotEventsPure cfg req failed n ps → isScreenshotEv e = true := by
  induction ps with
  | nil => intro n e he; simp [screenshotEventsPure] at he
  | cons p rest ih =>
      intro n e he
      simp only [screenshotEventsPure, List.mem_append] at he
      rcases he with he | he
      · cases hp : p.screenshotRaises <;> simp [hp] at he
        subst he; rfl
      · exact ih (n + 1) e he

theorem mem_videoEventsPure_shape (cfg : Config) (req : Request)
    (ps : List PageH) : ∀ (n : Nat) (e : Effect),
    e ∈ videoEventsPure cfg req n ps → isVideoSaveEv e = true := by
  induction ps with
  | nil => intro n e he; simp [videoEventsPure] at he
  | cons p rest ih =>
      intro n e he
      simp only [videoEventsPure, List.mem_append] at he
      rcases he with he | he
      · cases hv : p.hasVideo && !p.videoRaises <;> simp [hv] at he
        subst he; rfl
      · exact ih (n + 1) e he

theorem mem_screenshotEventsPure_iff (cfg : Config) (req : Request)
    (failed : Bool) :
    ∀ ps : List PageH, (∀ p ∈ ps, p.screenshotRaises = false) →
    ∀ n i : Nat,
    ((∃ t path fp, Effect.screenshot i t path fp ∈
        screenshotEventsPure cfg req failed n ps) ↔
      (n ≤ i ∧ i < n + ps.length)) := by
  intro ps
  induction ps with
  | nil =>
      intro _ n i
      simp only [screenshotEventsPure, List.not_mem_nil, exists_false,
        List.length_nil, false_iff, not_and, not_lt]
      omega
  | cons p rest ih =>
      intro hnr n i
      have hp : p.screenshotRaises = false := hnr p (by simp)
      have hrest : ∀ q ∈ rest, q.screenshotRaises = false :=
        fun q hq => hnr q (List.mem_cons_of_mem p hq)
      have hiff := ih hrest (n + 1) i
      simp only [screenshotEventsPure, hp, Bool.false_eq_true, if_false,
        List.mem_append, List.mem_singleton, Effect.screenshot.injEq,
        List.length_cons]
      constructor
      · rintro ⟨t, path, fp, ⟨rfl, -, -, -⟩ | hmem⟩
        · omega
        · have := hiff.mp ⟨t, path, fp, hmem⟩
          omega
      · intro hrange
        by_cases hin : i = n
        · subst hin
          exact ⟨5000, _, _, Or.inl ⟨rfl, rfl, rfl, rfl⟩⟩
        · obtain ⟨t, path, fp, hmem⟩ := hiff.mpr (by omega)
          exact ⟨t, path, fp, Or.inr hmem⟩

theorem mem_videoEventsPure_iff (cfg : Config) (req : Request) :
    ∀ ps : List PageH, (∀ p ∈ ps, p.videoRaises = false) →
    ∀ n i : Nat,
    ((∃ path, Effect.videoSaveAs i path ∈ videoEventsPure cfg req n ps) ↔
      (n ≤ i ∧ i - n < ps.length ∧
        (ps.getD (i - n) default).hasVideo = true)) := by
  intro ps
  induction ps with
  | nil =>
      intro _ n i
      simp only [videoEventsPure, List.not_mem_nil, exists_false,
        List.length_nil, false_iff, not_and]
      omega
  | cons p rest ih =>
      intro hnr n i
      have hp : p.videoRaises = false := hnr p (by simp)
      have hrest : ∀ q ∈ rest, q.videoRaises = false :=
        fun q hq => hnr q (List.mem_cons_of_mem p hq)
      have hiff := ih hrest (n + 1) i
      simp only [videoEventsPure, hp, Bool.not_false, Bool.and_true,
        List.mem_append, List.length_cons]
      constructor
      · rintro ⟨path, hmem | hmem⟩
        · cases hv : p.hasVideo <;> simp [hv] at hmem
          obtain ⟨heq, -⟩ := hmem
          refine ⟨by omega, by omega, ?_⟩
          have h0 : i - n = 0 := by omega
          rw [h0, List.getD_cons_zero]
          exact hv
        · obtain ⟨h1, h2, h3⟩ := hiff.mp ⟨path, hmem⟩
          refine ⟨by omega, by omega, ?_⟩
          have heq : i - n = (i - (n + 1)) + 1 := by omega
          rw [heq, List.getD_cons_succ]
          exact h3
      · rintro ⟨h1, h2, h3⟩
        by_cases hin : i = n
        · have h0 : i - n = 0 := by omega
          rw [h0, List.getD_cons_zero] at h3
          refine ⟨build_artifact_test_folder cfg req (basename p.videoPath),
            Or.inl ?_⟩
          simp [h3, hin]
        · have heq : i - n = (i - (n + 1)) + 1 := by omega
          rw [heq, List.getD_cons_succ] at h3
          obtain ⟨path, hmem⟩ := hiff.mpr ⟨by omega, by omega, h3⟩
          exact ⟨path, Or.inr hmem⟩

theorem mem_traceStopEvents_shape (cfg : Config) (req : Request)
    (failed : Bool) (e : Effect) (he : e ∈ traceStopEvents cfg req failed) :
    isTracingStopEv e = true := by
  unfold traceStopEvents at he
  split at he
  · split at he <;> simp only [List.mem_singleton] at he <;> subst he <;> rfl
  · simp at he

theorem mem_shotSeg_of_mem (cfg : Config) (req : Request) (pages : List PageH)
    (e : Effect)
    (h : e ∈ (if capture_screenshot cfg (failedOf req) = true then
        screenshotEventsPure cfg req (failedOf req) 0 pages else [])) :
    capture_screenshot cfg (failedOf req) = true ∧
      e ∈ screenshotEventsPure cfg req (failedOf req) 0 pages := by
  cases hc : capture_screenshot cfg (failedOf req) <;> rw [hc] at h
  · simp at h
  · exact ⟨rfl, by simpa using h⟩

theorem mem_vidSeg_of_mem (cfg : Config) (req : Request) (pages : List PageH)
    (e : Effect)
    (h : e ∈ (if preserve_video cfg (failedOf req) = true then
        videoEventsPure cfg req 0 pages else [])) :
    preserve_video cfg (failedOf req) = true ∧
      e ∈ videoEventsPure cfg req 0 pages := by
  cases hv : preserve_video cfg (failedOf req) <;> rw [hv] at h
  · simp at h
  · exact ⟨rfl, by simpa using h⟩

theorem screenshot_mem_teardown_iff (cfg : Config) (req : Request)
    (pages : List PageH) (i t : Nat) (path : String) (fp : Bool) :
    (Effect.screenshot i t path fp ∈ teardownEventsPure cfg req pages ↔
      (capture_screenshot cfg (failedOf req) = true ∧
        Effect.screenshot i t path fp ∈
          screenshotEventsPure cfg req (failedOf req) 0 pages)) := by
  unfold teardownEventsPure
  constructor
  · intro h
    rcases List.mem_append.mp h with h | h
    · have := mem_traceStopEvents_shape cfg req (failedOf req) _ h
      simp [isTracingStopEv] at this
    rcases List.mem_append.mp h with h | h
    · exact mem_shotSeg_of_mem cfg req pages _ h
    rcases List.mem_cons.mp h with h | h
    · simp at h
    · have hv := mem_vidSeg_of_mem cfg req pages _ h
      have := mem_videoEventsPure_shape cfg req pages 0 _ hv.2
      simp [isVideoSaveEv] at this
  · rintro ⟨hc, hm⟩
    refine List.mem_append.mpr (Or.inr (List.mem_append.mpr (Or.inl ?_)))
    rw [hc]
    simpa using hm

theorem videoSaveAs_mem_teardown_iff (cfg : Config) (req : Request)
    (pages : List PageH) (i : Nat) (path : String) :
    (Effect.videoSaveAs i path ∈ teardownEventsPure cfg req pages ↔
      (preserve_video cfg (failedOf req) = true ∧
        Effect.videoSaveAs i path ∈ videoEventsPure cfg req 0 pages)) := by
  unfold teardownEventsPure
  constructor
  · intro h
    rcases List.mem_append.mp h with h | h
    · have := mem_traceStopEvents_shape cfg req (failedOf req) _ h
      simp [isTracingStopEv] at this
    rcases List.mem_append.mp h with h | h
    · have hc := mem_shotSeg_of_mem cfg req pages _ h
      have := mem_screenshotEventsPure_shape cfg req (failedOf req) pages 0 _ hc.2
      simp [isScreenshotEv] at this
    rcases List.mem_cons.mp h with h | h
    · simp at h
    · exact mem_vidSeg_of_mem cfg req pages _ h
  · rintro ⟨hv, hm⟩
    refine List.mem_append.mpr (Or.inr (List.mem_append.mpr
      (Or.inr (List.mem_cons.mpr (Or.inr ?_)))))
    rw [hv]
    simpa using hm

theorem tracingStop_mem_teardown_iff (cfg : Config) (req : Request)
    (pages : List PageH) (op : Option String) :
    (Effect.tracingStop op ∈ teardownEventsPure cfg req pages ↔
      Effect.tracingStop op ∈ traceStopEvents cfg req (failedOf req)) := by
  unfold teardownEventsPure
  constructor
  · intro h
    rcases List.mem_append.mp h with h | h
    · exact h
    rcases List.mem_append.mp h with h | h
    · have hc := mem_shotSeg_of_mem cfg req pages _ h
      have := mem_screenshotEventsPure_shape cfg req (failedOf req) pages 0 _ hc.2
      simp [isScreenshotEv] at this
    rcases List.mem_cons.mp h with h | h
    · simp at h
    · have hv := mem_vidSeg_of_mem cfg req pages _ h
      have := mem_videoEventsPure_shape cfg req pages 0 _ hv.2
      simp [isVideoSaveEv] at this
  · intro h
    exact List.mem_append.mpr (Or.inl h)

/-- C1: Trace retention decision: for every tracing setting in
{"on", "off", "retain-on-failure"} and every test outcome in {pass, fail},
the context fixture teardown keeps the trace file (emits a `tracing.stop`
with an output path) if and only if the tracing setting is "on", or the
test failed and the setting is "retain-on-failure"; in every other case no
trace file is persisted. -/
theorem trace_retention_decision
    (t : String) (ht : t ∈ ["on", "off", "retain-on-failure"])
    (b : Bool) (cfg : Config) (req : Request) (pages : List PageH)
    (hcfg : cfg.tracing = t) (hreq : req.rep_call = some b)
    (evs : List Effect)
    (hrun : contextTeardown cfg req pages = Except.ok evs) :
    ((∃ path, Effect.tracingStop (some path) ∈ evs) ↔
      (t = "on" ∨ (b = true ∧ t = "retain-on-failure"))) := by
  rw [contextTeardown_eq] at hrun
  injection hrun with hevs
  subst hevs
  have hfail : failedOf req = b := by simp [failedOf, hreq]
  simp only [tracingStop_mem_teardown_iff]
  unfold traceStopEvents retain_trace capture_trace
  rw [hcfg, hfail]
  simp only [List.mem_cons, List.not_mem_nil, or_false] at ht
  rcases ht with rfl | rfl | rfl <;> cases b <;> simp

/-- C1 witness: with tracing "retain-on-failure" and a failed test, the
teardown emits a `tracing.stop` with an output path. -/
theorem trace_retention_decision_witness :
    ((∃ path, Effect.tracingStop (some path) ∈
        [Effect.tracingStop (some "test-results/t/trace.zip"),
          Effect.contextClose]) ↔
      (("retain-on-failure" : String) = "on" ∨
        (true = true ∧ ("retain-on-failure" : String) = "retain-on-failure"))) :=
  trace_retention_decision "retain-on-failure" (by decide) true cfgTraceRof
    reqFail [] rfl rfl _ rfl

/-- C2: Screenshot capture decision: for every screenshot setting in
{"on", "off", "only-on-failure"} and every test outcome in {pass, fail},
the context fixture teardown captures a screenshot for each page opened by
the test (here: each non-raising page, at each index below the number of
pages) if and only if the setting is "on", or the test failed and the
setting is "only-on-failure"; otherwise no screenshot is taken. -/
theorem screenshot_capture_decision
    (s : String) (hs : s ∈ ["on", "off", "only-on-failure"])
    (b : Bool) (cfg : Config) (req : Request) (pages : List PageH)
    (hcfg : cfg.screenshot = s) (hreq : req.rep_call = some b)
    (hnr : ∀ p ∈ pages, p.screenshotRaises = false)
    (evs : List Effect)
    (hrun : contextTeardown cfg req pages = Except.ok evs)
    (i : Nat) (hi : i < pages.length) :
    ((∃ t path fp, Effect.screenshot i t path fp ∈ evs) ↔
      (s = "on" ∨ (b = true ∧ s = "only-on-failure"))) := by
  rw [contextTeardown_eq] at hrun
  injection hrun with hevs
  subst hevs
  have hfail : failedOf req = b := by simp [failedOf, hreq]
  simp only [screenshot_mem_teardown_iff, exists_and_left]
  rw [mem_screenshotEventsPure_iff cfg req (failedOf req) pages hnr 0 i]
  unfold capture_screenshot
  rw [hcfg, hfail]
  simp only [List.mem_cons, List.not_mem_nil, or_false] at hs
  rcases hs with rfl | rfl | rfl <;> cases b <;> simp <;> omega

/-- C2 witness: with screenshots "on" and a passed test with one page, the
teardown captures a screenshot at index 0. -/
theorem screenshot_capture_decision_witness :
    ((∃ t path fp, Effect.screenshot 0 t path fp ∈
        [Effect.screenshot 0 5000 "test-results/t/test-finished-1.png" false,
          Effect.contextClose]) ↔
      (("on" : String) = "on" ∨ (false = true ∧ ("on" : String) = "only-on-failure"))) :=
  screenshot_capture_decision "on" (by decide) false cfgShotOn reqPass [pageOk]
    rfl rfl (by intro p hp; simp at hp; subst hp; rfl) _ rfl 0 (by decide)

/-- C3: Video preservation decision: for every video setting in
{"on", "off", "retain-on-failure"} and every test outcome in {pass, fail},
the context fixture teardown saves the video of each page that has one if
and only if the setting is "on", or the test failed and the setting is
"retain-on-failure"; pages with no video object are skipped. -/
theorem video_preservation_decision
    (v : String) (hv : v ∈ ["on", "off", "retain-on-failure"])
    (b : Bool) (cfg : Config) (req : Request) (pages : List PageH)
    (hcfg : cfg.video = v) (hreq : req.rep_call = some b)
    (hnr : ∀ p ∈ pages, p.videoRaises = false)
    (evs : List Effect)
    (hrun : contextTeardown cfg req pages = Except.ok evs)
    (i : Nat) (hi : i < pages.length) :
    ((∃ path, Effect.videoSaveAs i path ∈ evs) ↔
      ((pages.getD i default).hasVideo = true ∧
        (v = "on" ∨ (b = true ∧ v = "retain-on-failure")))) := by
  rw [contextTeardown_eq] at hrun
  injection hrun with hevs
  subst hevs
  have hfail : failedOf req = b := by simp [failedOf, hreq]
  simp only [videoSaveAs_mem_teardown_iff, exists_and_left]
  rw [mem_videoEventsPure_iff cfg req pages hnr 0 i]
  unfold preserve_video
  rw [hcfg, hfail]
  simp only [Nat.sub_zero, Nat.zero_add, Nat.zero_le, true_and]
  simp only [List.mem_cons, List.not_mem_nil, or_false] at hv
  rcases hv with rfl | rfl | rfl <;> cases b <;> simp [hi]

/-- C3 witness: with video "retain-on-failure" and a failed test whose one
page has a video, the teardown saves that video. -/
theorem video_preservation_decision_witness :
    ((∃ path, Effect.videoSaveAs 0 path ∈
        [Effect.contextClose, Effect.videoSaveAs 0 "test-results/t/v.webm"]) ↔
      ((([pageOk] : List PageH).getD 0 default).hasVideo = true ∧
        (("retain-on-failure" : String) = "on" ∨
          (true = true ∧ ("retain-on-failure" : String) = "retain-on-failure")))) :=
  video_preservation_decision "retain-on-failure" (by decide) true
    cfgVideoRof reqFail [pageOk]
    rfl rfl (by intro p hp; simp at hp; subst hp; rfl)
    [Effect.contextClose, Effect.videoSaveAs 0 "test-results/t/v.webm"]
    (by rfl) 0 (by decide)

/-- C4: Best-effort capture: whatever the options, the outcome, and
whichever pages raise `Error` during screenshot capture or video
persistence, the teardown completes with a value (the raised errors are
swallowed and never propagate). -/
theorem best_effort_capture (cfg : Config) (req : Request)
    (pages : List PageH) :
    ∃ evs, contextTeardown cfg req pages = Except.ok evs :=
  ⟨teardownEventsPure cfg req pages, contextTeardown_eq cfg req pages⟩

theorem shape_of_isScreenshotEv (e : Effect) (h : isScreenshotEv e = true) :
    e ≠ Effect.contextClose ∧ isTracingStartEv e = false ∧
      isTracingStopEv e = false ∧ isVideoSaveEv e = false := by
  cases e <;>
    simp [isScreenshotEv, isTracingStartEv, isTracingStopEv, isVideoSaveEv]
      at h ⊢

theorem shape_of_isVideoSaveEv (e : Effect) (h : isVideoSaveEv e = true) :
    e ≠ Effect.contextClose ∧ isTracingStartEv e = false ∧
      isTracingStopEv e = false ∧ isScreenshotEv e = false := by
  cases e <;>
    simp [isScreenshotEv, isTracingStartEv, isTracingStopEv, isVideoSaveEv]
      at h ⊢

theorem shape_of_isTracingStopEv (e : Effect) (h : isTracingStopEv e = true) :
    e ≠ Effect.contextClose ∧ isTracingStartEv e = false ∧
      isScreenshotEv e = false ∧ isVideoSaveEv e = false := by
  cases e <;>
    simp [isScreenshotEv, isTracingStartEv, isTracingStopEv, isVideoSaveEv]
      at h ⊢

theorem mem_contextSetup (cfg : Config) (req : Request) (e : Effect)
    (he : e ∈ contextSetup cfg req) :
    e = Effect.tracingStart (slugify req.nodeid) true true true := by
  unfold contextSetup at he
  split at he
  · simpa using he
  · simp at he

theorem tracingStart_not_mem_teardown (cfg : Config) (req : Request)
    (pages : List PageH) (title : String) (a b c : Bool) :
    Effect.tracingStart title a b c ∉ teardownEventsPure cfg req pages := by
  intro h
  unfold teardownEventsPure at h
  rcases List.mem_append.mp h with h | h
  · have := mem_traceStopEvents_shape cfg req (failedOf req) _ h
    simp [isTracingStopEv] at this
  rcases List.mem_append.mp h with h | h
  · have := mem_screenshotEventsPure_shape cfg req (failedOf req) pages 0 _
      (mem_shotSeg_of_mem cfg req pages _ h).2
    simp [isScreenshotEv] at this
  rcases List.mem_cons.mp h with h | h
  · simp at h
  · have := mem_videoEventsPure_shape cfg req pages 0 _
      (mem_vidSeg_of_mem cfg req pages _ h).2
    simp [isVideoSaveEv] at this

theorem traceStopEvents_path (cfg : Config) (req : Request) (failed : Bool)
    (p : String)
    (h : Effect.tracingStop (some p) ∈ traceStopEvents cfg req failed) :
    p = build_artifact_test_folder cfg req "trace.zip" := by
  unfold traceStopEvents at h
  split at h
  · split at h <;> simp only [List.mem_singleton] at h
    · injection h with h2
      injection h2
    · injection h with h2
      simp at h2
  · simp at h

theorem screenshotEventsPure_path (cfg : Config) (req : Request)
    (failed : Bool) (ps : List PageH) : ∀ (n i t : Nat) (p : String) (fp : Bool),
    Effect.screenshot i t p fp ∈ screenshotEventsPure cfg req failed n ps →
    ∃ nm, p = build_artifact_test_folder cfg req nm := by
  induction ps with
  | nil => intro n i t p fp h; simp [screenshotEventsPure] at h
  | cons q rest ih =>
      intro n i t p fp h
      rcases List.mem_append.mp h with h | h
      · cases hq : q.screenshotRaises <;> rw [hq] at h
        · simp only [Bool.false_eq_true, if_false, List.mem_singleton] at h
          injection h with h1 h2 h3 h4
          exact ⟨screenshotName failed n, h3⟩
        · simp at h
      · exact ih (n + 1) i t p fp h

theorem screenshotEventsPure_fullpage (cfg : Config) (req : Request)
    (failed : Bool) (ps : List PageH) : ∀ (n i t : Nat) (p : String) (fp : Bool),
    Effect.screenshot i t p fp ∈ screenshotEventsPure cfg req failed n ps →
    fp = cfg.full_page_screenshot := by
  induction ps with
  | nil => intro n i t p fp h; simp [screenshotEventsPure] at h
  | cons q rest ih =>
      intro n i t p fp h
      rcases List.mem_append.mp h with h | h
      · cases hq : q.screenshotRaises <;> rw [hq] at h
        · simp only [Bool.false_eq_true, if_false, List.mem_singleton] at h
          injection h with h1 h2 h3 h4
        · simp at h
      · exact ih (n + 1) i t p fp h

theorem videoEventsPure_path (cfg : Config) (req : Request)
    (ps : List PageH) : ∀ (n i : Nat) (p : String),
    Effect.videoSaveAs i p ∈ videoEventsPure cfg req n ps →
    ∃ nm, p = build_artifact_test_folder cfg req nm := by
  induction ps with
  | nil => intro n i p h; simp [videoEventsPure] at h
  | cons q rest ih =>
      intro n i p h
      rcases List.mem_append.mp h with h | h
      · cases hq : q.hasVideo && !q.videoRaises <;> rw [hq] at h
        · simp at h
        · simp only [if_true, List.mem_singleton] at h
          injection h with h1 h2
          exact ⟨basename q.videoPath, h2⟩
      · exact ih (n + 1) i p h

/-- C5: Per-test artifact placement: every persisted artifact (trace file,
screenshot, video) is written to a path produced by the
artifact-test-folder builder from the test runner's request, and the trace
title is the slugified test node id. -/
theorem per_test_artifact_placement (cfg : Config) (req : Request)
    (pages : List PageH) (evs : List Effect)
    (hrun : contextFixture cfg req pages = Except.ok evs) :
    (∀ (title : String) (a b c : Bool),
        Effect.tracingStart title a b c ∈ evs → title = slugify req.nodeid) ∧
    (∀ p : String, Effect.tracingStop (some p) ∈ evs →
        ∃ nm, p = build_artifact_test_folder cfg req nm) ∧
    (∀ (i t : Nat) (p : String) (fp : Bool),
        Effect.screenshot i t p fp ∈ evs →
        ∃ nm, p = build_artifact_test_folder cfg req nm) ∧
    (∀ (i : Nat) (p : String), Effect.videoSaveAs i p ∈ evs →
        ∃ nm, p = build_artifact_test_folder cfg req nm) := by
  rw [contextFixture_eq] at hrun
  injection hrun with hevs
  subst hevs
  refine ⟨?_, ?_, ?_, ?_⟩
  · intro title a b c h
    rcases List.mem_append.mp h with h | h
    · have := mem_contextSetup cfg req _ h
      injection this with h1
    · exact absurd h (tracingStart_not_mem_teardown cfg req pages title a b c)
  · intro p h
    rcases List.mem_append.mp h with h | h
    · have := mem_contextSetup cfg req _ h
      simp at this
    · have hm := (tracingStop_mem_teardown_iff cfg req pages (some p)).mp h
      exact ⟨"trace.zip", traceStopEvents_path cfg req (failedOf req) p hm⟩
  · intro i t p fp h
    rcases List.mem_append.mp h with h | h
    · have := mem_contextSetup cfg req _ h
      simp at this
    · have hm := (screenshot_mem_teardown_iff cfg req pages i t p fp).mp h
      exact screenshotEventsPure_path cfg req (failedOf req) pages 0 i t p fp hm.2
  · intro i p h
    rcases List.mem_append.mp h with h | h
    · have := mem_contextSetup cfg req _ h
      simp at this
    · have hm := (videoSaveAs_mem_teardown_iff cfg req pages i p).mp h
      exact videoEventsPure_path cfg req pages 0 i p hm.2

/-- C5 witness: a concrete all-on failed run; every artifact path and
the trace title come from the builder and the slugified node id. -/
theorem per_test_artifact_placement_witness :
    (∀ (title : String) (a b c : Bool),
        Effect.tracingStart title a b c ∈
          [Effect.tracingStart "t" true true true,
            Effect.tracingStop (some "test-results/t/trace.zip"),
            Effect.screenshot 0 5000 "test-results/t/test-failed-1.png" true,
            Effect.contextClose,
            Effect.videoSaveAs 0 "test-results/t/v.webm"] →
        title = slugify reqFail.nodeid) ∧
    (∀ p : String, Effect.tracingStop (some p) ∈
          [Effect.tracingStart "t" true true true,
            Effect.tracingStop (some "test-results/t/trace.zip"),
            Effect.screenshot 0 5000 "test-results/t/test-failed-1.png" true,
            Effect.contextClose,
            Effect.videoSaveAs 0 "test-results/t/v.webm"] →
        ∃ nm, p = build_artifact_test_folder cfgAllOn reqFail nm) ∧
    (∀ (i t : Nat) (p : String) (fp : Bool),
        Effect.screenshot i t p fp ∈
          [Effect.tracingStart "t" true true true,
            Effect.tracingStop (some "test-results/t/trace.zip"),
            Effect.screenshot 0 5000 "test-results/t/test-failed-1.png" true,
            Effect.contextClose,
            Effect.videoSaveAs 0 "test-results/t/v.webm"] →
        ∃ nm, p = build_artifact_test_folder cfgAllOn reqFail nm) ∧
    (∀ (i : Nat) (p : String), Effect.videoSaveAs i p ∈
          [Effect.tracingStart "t" true true true,
            Effect.tracingStop (some "test-results/t/trace.zip"),
            Effect.screenshot 0 5000 "test-results/t/test-failed-1.png" true,
            Effect.contextClose,
            Effect.videoSaveAs 0 "test-results/t/v.webm"] →
        ∃ nm, p = build_artifact_test_folder cfgAllOn reqFail nm) :=
  per_test_artifact_placement cfgAllOn reqFail [pageOk]
    [Effect.tracingStart "t" true true true,
      Effect.tracingStop (some "test-results/t/trace.zip"),
      Effect.screenshot 0 5000 "test-results/t/test-failed-1.png" true,
      Effect.contextClose,
      Effect.videoSaveAs 0 "test-results/t/v.webm"]
    (by rfl)

/-- C7: Full-page-screenshot pass-through: whenever the teardown captures
a screenshot, the screenshot call's full_page argument equals the value of
the full-page-screenshot flag. -/
theorem full_page_screenshot_passthrough (cfg : Config) (req : Request)
    (pages : List PageH) (evs : List Effect)
    (hrun : contextTeardown cfg req pages = Except.ok evs)
    (i t : Nat) (path : String) (fp : Bool)
    (hmem : Effect.screenshot i t path fp ∈ evs) :
    fp = cfg.full_page_screenshot := by
  rw [contextTeardown_eq] at hrun
  injection hrun with hevs
  subst hevs
  have hm := (screenshot_mem_teardown_iff cfg req pages i t path fp).mp hmem
  exact screenshotEventsPure_fullpage cfg req (failedOf req) pages 0 i t path
    fp hm.2

/-- C7 witness: a concrete run with the flag set; the emitted screenshot
call carries full_page = true. -/
theorem full_page_screenshot_passthrough_witness :
    (true : Bool) = cfgAllOn.full_page_screenshot :=
  full_page_screenshot_passthrough cfgAllOn reqPass [pageOk]
    [Effect.tracingStop (some "test-results/t/trace.zip"),
      Effect.screenshot 0 5000 "test-results/t/test-finished-1.png" true,
      Effect.contextClose,
      Effect.videoSaveAs 0 "test-results/t/v.webm"]
    (by rfl) 0 5000 "test-results/t/test-finished-1.png" true (by simp)

theorem traceStopEvents_congr (cfg : Config) (r1 r2 : Request)
    (hn : r1.nodeid = r2.nodeid) (failed : Bool) :
    traceStopEvents cfg r1 failed = traceStopEvents cfg r2 failed := by
  simp [traceStopEvents, build_artifact_test_folder, hn]

theorem screenshotEventsPure_congr (cfg : Config) (r1 r2 : Request)
    (hn : r1.nodeid = r2.nodeid) (failed : Bool) (ps : List PageH) :
    ∀ n : Nat, screenshotEventsPure cfg r1 failed n ps =
      screenshotEventsPure cfg r2 failed n ps := by
  induction ps with
  | nil => intro n; rfl
  | cons q rest ih =>
      intro n
      simp [screenshotEventsPure, build_artifact_test_folder, hn, ih]

theorem videoEventsPure_congr (cfg : Config) (r1 r2 : Request)
    (hn : r1.nodeid = r2.nodeid) (ps : List PageH) :
    ∀ n : Nat, videoEventsPure cfg r1 n ps = videoEventsPure cfg r2 n ps := by
  induction ps with
  | nil => intro n; rfl
  | cons q rest ih =>
      intro n
      simp [videoEventsPure, build_artifact_test_folder, hn, ih]

/-- C8: Missing-report-means-failure: when the test node has no rep_call
attribute, the whole teardown behaves exactly as for the same node with a
failed test report, so all three keep/discard decisions follow the
failed-test branch. -/
theorem missing_report_means_failure (cfg : Config) (req : Request)
    (hnone : req.rep_call = none) (pages : List PageH) :
    contextTeardown cfg req pages =
      contextTeardown cfg { nodeid := req.nodeid, rep_call := some true }
        pages := by
  rw [contextTeardown_eq, contextTeardown_eq]
  unfold teardownEventsPure
  have hf : failedOf req = true := by simp [failedOf, hnone]
  have hf2 : failedOf { nodeid := req.nodeid, rep_call := some true } = true :=
    rfl
  rw [hf, hf2,
    traceStopEvents_congr cfg req { nodeid := req.nodeid, rep_call := some true }
      rfl true,
    screenshotEventsPure_congr cfg req
      { nodeid := req.nodeid, rep_call := some true } rfl true pages 0,
    videoEventsPure_congr cfg req
      { nodeid := req.nodeid, rep_call := some true } rfl pages 0]

/-- C8 witness: concrete node without rep_call; its teardown equals the
failed-test teardown. -/
theorem missing_report_means_failure_witness :
    contextTeardown cfgAllOn reqNoRep [pageOk] =
      contextTeardown cfgAllOn
        { nodeid := reqNoRep.nodeid, rep_call := some true } [pageOk] :=
  missing_report_means_failure cfgAllOn reqNoRep rfl [pageOk]

/-- C6: CLI option registration: `pytest_addoption` registers --browser
(chromium/firefox/webkit, appending, default empty list), --headed
(default false), --browser-channel (default none), --slowmo (integer,
default 0), --device (default none), --output (default "test-results"),
the three capture options --tracing, --video, --screenshot defaulting to
"off" with exactly the three listed choices, and --full-page-screenshot
(default false). -/
theorem cli_option_registration :
    ((findOption "--browser").map (fun o => (o.action, o.dflt, o.choices)) =
      some ("append", OptDefault.listV [],
        some ["chromium", "firefox", "webkit"])) ∧
    ((findOption "--headed").map (fun o => (o.action, o.dflt)) =
      some ("store_true", OptDefault.boolV false)) ∧
    ((findOption "--browser-channel").map (fun o => o.dflt) =
      some OptDefault.noneV) ∧
    ((findOption "--slowmo").map (fun o => (o.typ, o.dflt)) =
      some (some "int", OptDefault.intV 0)) ∧
    ((findOption "--device").map (fun o => o.dflt) = some OptDefault.noneV) ∧
    ((findOption "--output").map (fun o => o.dflt) =
      some (OptDefault.strV "test-results")) ∧
    ((findOption "--tracing").map (fun o => (o.dflt, o.choices)) =
      some (OptDefault.strV "off", some ["on", "off", "retain-on-failure"])) ∧
    ((findOption "--video").map (fun o => (o.dflt, o.choices)) =
      some (OptDefault.strV "off", some ["on", "off", "retain-on-failure"])) ∧
    ((findOption "--screenshot").map (fun o => (o.dflt, o.choices)) =
      some (OptDefault.strV "off", some ["on", "off", "only-on-failure"])) ∧
    ((findOption "--full-page-screenshot").map (fun o => (o.action, o.dflt)) =
      some ("store_true", OptDefault.boolV false)) :=
  ⟨rfl, rfl, rfl, rfl, rfl, rfl, rfl, rfl, rfl, rfl⟩

theorem filter_eq_nil_of_shape (f : Effect → Bool) (l : List Effect)
    (h : ∀ e ∈ l, f e = false) : List.filter f l = [] := by
  induction l with
  | nil => rfl
  | cons x xs ih =>
      have hx := h x (List.mem_cons_self x xs)
      simp [List.filter_cons, hx,
        ih (fun e he => h e (List.mem_cons_of_mem x he))]

/-- C9: Tracing start/stop pairing: tracing is started on the context iff
the tracing setting is "on" or "retain-on-failure", and in exactly those
cases tracing.stop is called once at teardown — with an output path when
the trace is retained, and with no path otherwise; when the setting is
"off", neither tracing.start nor tracing.stop is ever called. -/
theorem tracing_start_stop_pairing
    (t : String) (ht : t ∈ ["on", "off", "retain-on-failure"])
    (b : Bool) (cfg : Config) (req : Request) (pages : List PageH)
    (hcfg : cfg.tracing = t) (hreq : req.rep_call = some b)
    (evs : List Effect)
    (hrun : contextFixture cfg req pages = Except.ok evs) :
    ((evs.filter isTracingStartEv).length =
        (if t = "on" ∨ t = "retain-on-failure" then 1 else 0)) ∧
    ((evs.filter isTracingStopEv).length =
        (if t = "on" ∨ t = "retain-on-failure" then 1 else 0)) ∧
    (∀ op : Option String, Effect.tracingStop op ∈ evs →
      (op.isSome = true ↔
        (t = "on" ∨ (b = true ∧ t = "retain-on-failure")))) := by
  rw [contextFixture_eq] at hrun
  injection hrun with hevs
  subst hevs
  have hfail : failedOf req = b := by simp [failedOf, hreq]
  have hshotNil : ∀ f : Effect → Bool,
      (∀ e, isScreenshotEv e = true → f e = false) →
      List.filter f (if capture_screenshot cfg (failedOf req) = true then
        screenshotEventsPure cfg req (failedOf req) 0 pages else []) = [] := by
    intro f hf
    apply filter_eq_nil_of_shape
    intro e he
    exact hf e (mem_screenshotEventsPure_shape cfg req (failedOf req) pages 0 e
      (mem_shotSeg_of_mem cfg req pages e he).2)
  have hvidNil : ∀ f : Effect → Bool,
      (∀ e, isVideoSaveEv e = true → f e = false) →
      List.filter f (if preserve_video cfg (failedOf req) = true then
        videoEventsPure cfg req 0 pages else []) = [] := by
    intro f hf
    apply filter_eq_nil_of_shape
    intro e he
    exact hf e (mem_videoEventsPure_shape cfg req pages 0 e
      (mem_vidSeg_of_mem cfg req pages e he).2)
  refine ⟨?_, ?_, ?_⟩
  · unfold teardownEventsPure
    rw [List.filter_append, List.filter_append, List.filter_append,
      List.filter_cons,
      hshotNil isTracingStartEv (fun e he => (shape_of_isScreenshotEv e he).2.1),
      hvidNil isTracingStartEv (fun e he => (shape_of_isVideoSaveEv e he).2.1)]
    unfold contextSetup traceStopEvents capture_trace retain_trace
    rw [hcfg, hfail]
    simp only [List.mem_cons, List.not_mem_nil, or_false] at ht
    rcases ht with rfl | rfl | rfl <;> cases b <;>
      simp [isTracingStartEv]
  · unfold teardownEventsPure
    rw [List.filter_append, List.filter_append, List.filter_append,
      List.filter_cons,
      hshotNil isTracingStopEv
        (fun e he => (shape_of_isScreenshotEv e he).2.2.1),
      hvidNil isTracingStopEv
        (fun e he => (shape_of_isVideoSaveEv e he).2.2.1)]
    unfold contextSetup traceStopEvents capture_trace retain_trace
    rw [hcfg, hfail]
    simp only [List.mem_cons, List.not_mem_nil, or_false] at ht
    rcases ht with rfl | rfl | rfl <;> cases b <;>
      simp [isTracingStopEv, isTracingStartEv]
  · intro op hop
    rcases List.mem_append.mp hop with h | h
    · have := mem_contextSetup cfg req _ h
      simp at this
    · have hm := (tracingStop_mem_teardown_iff cfg req pages op).mp h
      unfold traceStopEvents capture_trace retain_trace at hm
      rw [hcfg, hfail] at hm
      simp only [List.mem_cons, List.not_mem_nil, or_false] at ht
      rcases ht with rfl | rfl | rfl <;> cases b <;>
        simp at hm <;> simp [hm]

/-- C9 witness: with tracing "on" and a passed test, the fixture starts
tracing once and stops it once, with an output path. -/
theorem tracing_start_stop_pairing_witness :
    ((List.filter isTracingStartEv
        [Effect.tracingStart "t" true true true,
          Effect.tracingStop (some "test-results/t/trace.zip"),
          Effect.contextClose]).length =
      (if ("on" : String) = "on" ∨ ("on" : String) = "retain-on-failure"
        then 1 else 0)) ∧
    ((List.filter isTracingStopEv
        [Effect.tracingStart "t" true true true,
          Effect.tracingStop (some "test-results/t/trace.zip"),
          Effect.contextClose]).length =
      (if ("on" : String) = "on" ∨ ("on" : String) = "retain-on-failure"
        then 1 else 0)) ∧
    (∀ op : Option String, Effect.tracingStop op ∈
        [Effect.tracingStart "t" true true true,
          Effect.tracingStop (some "test-results/t/trace.zip"),
          Effect.contextClose] →
      (op.isSome = true ↔
        (("on" : String) = "on" ∨
          (false = true ∧ ("on" : String) = "retain-on-failure")))) :=
  tracing_start_stop_pairing "on" (by decide) false cfgAllOn reqPass []
    rfl rfl
    [Effect.tracingStart "t" true true true,
      Effect.tracingStop (some "test-results/t/trace.zip"),
      Effect.contextClose]
    (by rfl)

/-- C10: Teardown ordering and closure: for every combination of settings
and outcome, the teardown closes the browsing context exactly once, after
any trace stop and screenshot captures but before any video is saved. -/
theorem teardown_ordering_closure (cfg : Config) (req : Request)
    (pages : List PageH) (evs : List Effect)
    (hrun : contextTeardown cfg req pages = Except.ok evs) :
    ∃ pre post, evs = pre ++ Effect.contextClose :: post ∧
      (∀ e ∈ pre, e ≠ Effect.contextClose ∧ isVideoSaveEv e = false) ∧
      (∀ e ∈ post, e ≠ Effect.contextClose ∧ isTracingStopEv e = false ∧
        isScreenshotEv e = false) := by
  rw [contextTeardown_eq] at hrun
  injection hrun with hevs
  subst hevs
  refine ⟨traceStopEvents cfg req (failedOf req) ++
      (if capture_screenshot cfg (failedOf req) = true then
        screenshotEventsPure cfg req (failedOf req) 0 pages else []),
    (if preserve_video cfg (failedOf req) = true then
        videoEventsPure cfg req 0 pages else []), ?_, ?_, ?_⟩
  · unfold teardownEventsPure
    rw [List.append_assoc]
  · intro e he
    rcases List.mem_append.mp he with h | h
    · have h2 := shape_of_isTracingStopEv e
        (mem_traceStopEvents_shape cfg req (failedOf req) e h)
      exact ⟨h2.1, h2.2.2.2⟩
    · have h2 := shape_of_isScreenshotEv e
        (mem_screenshotEventsPure_shape cfg req (failedOf req) pages 0 e
          (mem_shotSeg_of_mem cfg req pages e h).2)
      exact ⟨h2.1, h2.2.2.2⟩
  · intro e he
    have h2 := shape_of_isVideoSaveEv e
      (mem_videoEventsPure_shape cfg req pages 0 e
        (mem_vidSeg_of_mem cfg req pages e he).2)
    exact ⟨h2.1, h2.2.2.1, h2.2.2.2⟩

/-- C10 witness: a concrete run with one screenshot and one video; the
close sits between them. -/
theorem teardown_ordering_closure_witness :
    ∃ pre post,
      [Effect.tracingStop (some "test-results/t/trace.zip"),
        Effect.screenshot 0 5000 "test-results/t/test-finished-1.png" true,
        Effect.contextClose,
        Effect.videoSaveAs 0 "test-results/t/v.webm"] =
          pre ++ Effect.contextClose :: post ∧
      (∀ e ∈ pre, e ≠ Effect.contextClose ∧ isVideoSaveEv e = false) ∧
      (∀ e ∈ post, e ≠ Effect.contextClose ∧ isTracingStopEv e = false ∧
        isScreenshotEv e = false) :=
  teardown_ordering_closure cfgAllOn reqPass [pageOk]
    [Effect.tracingStop (some "test-results/t/trace.zip"),
      Effect.screenshot 0 5000 "test-results/t/test-finished-1.png" true,
      Effect.contextClose,
      Effect.videoSaveAs 0 "test-results/t/v.webm"]
    (by rfl)

end PytestPlaywright
